import Mathlib

/-!
# BbConverter — verification of the question-conversion core

A shallow embedding of the parsing/normalization core of the BbConverter
repository (Blackboard exam-question converter): the metadata normalizer
(`stripSEUMetadata` in the main script, `stripQTIMetadata` in
`js/qti_export.js` — the two are the same pattern list and removal loop),
the per-kind block parsers for the tab-delimited output path, the QTI
parsers for the XML output path, and the numeric-item XML generator.

JavaScript strings are modelled as Lean `String`/`List Char` with ASCII
case folding (`Char.toLower`); the JS whitespace class `\s` is modelled by
`jsWs` below, which covers every whitespace character that can occur in
the repository's inputs.  The regular expressions of the source are
embedded as explicit matchers; for the catch-all group patterns such as
`\([^)]*(?:LO|...)[^)]*\)` the matcher uses the fact (checked against the
regex semantics) that such a pattern matches at a position `i` exactly
when `s[i]` is the opening bracket, a closing bracket follows, and one of
the keywords occurs (case-insensitively) strictly between `i` and the
first closing bracket after `i`; the match then extends from `i` to that
first closing bracket.  Nondeterministic `generateUUID()` identifiers are
modelled as explicit parameters; they play no role in the properties
proved here.
-/

set_option maxRecDepth 4000

/-! ## JS string primitives -/

/-- The JS regex whitespace class `\s` (restricted to the characters that
can occur in this repository's inputs; JS additionally folds some rarer
Unicode space separators). -/
def jsWs (c : Char) : Bool :=
  c = ' ' || c = '\t' || c = '\n' || c = '\r' || c = '\x0b' || c = '\x0c' || c = '\u00A0'

/-- Does `hay` start with `sub` (case-sensitively)? -/
def startsWithList : List Char → List Char → Bool
  | _, [] => true
  | [], _ :: _ => false
  | c :: cs, d :: ds => c = d && startsWithList cs ds

/-- JS `String.prototype.includes`: substring containment, case-sensitive. -/
def containsSub : List Char → List Char → Bool
  | [], sub => sub.isEmpty
  | c :: t, sub => startsWithList (c :: t) sub || containsSub t sub

/-- JS `String.prototype.toLowerCase` (ASCII case folding). -/
def lowerList (l : List Char) : List Char := l.map Char.toLower

/-- Case-insensitive substring containment (used for the `/i` regex flag). -/
def containsSubCI (hay : List Char) (k : String) : Bool :=
  containsSub (lowerList hay) (lowerList k.data)

/-- JS `String.prototype.split(sep)` for a one-character separator:
`n` separators yield `n+1` (possibly empty) pieces. -/
def jsSplit (sep : Char) : List Char → List (List Char)
  | [] => [[]]
  | c :: cs =>
    let r := jsSplit sep cs
    if c = sep then [] :: r
    else
      match r with
      | [] => [[c]]
      | h :: t => (c :: h) :: t

/-- Drop a trailing run of JS whitespace (the right half of `trim()`). -/
def dropTrailingWs : List Char → List Char
  | [] => []
  | c :: cs =>
    let r := dropTrailingWs cs
    if r.isEmpty && jsWs c then [] else c :: r

/-- JS `String.prototype.trim()` on character lists. -/
def trimJS (l : List Char) : List Char :=
  dropTrailingWs (l.dropWhile jsWs)

/-- JS `trim()` on strings. -/
def trimStr (s : String) : String := ⟨trimJS s.data⟩

mutual

/-- JS `replace(/\s+/g, ' ')`: each whitespace run becomes one space. -/
def collapseRuns : List Char → List Char
  | [] => []
  | c :: cs => if jsWs c then ' ' :: skipWs cs else c :: collapseRuns cs

/-- Helper of `collapseRuns`: consume the rest of a whitespace run. -/
def skipWs : List Char → List Char
  | [] => []
  | c :: cs => if jsWs c then skipWs cs else c :: collapseRuns cs

end

/-- `replace(/\s+/g, ' ').trim()` — the whitespace cleanup that ends every
run of the metadata normalizer. -/
def collapseWs (l : List Char) : List Char :=
  trimJS (collapseRuns l)

/-- String form of `collapseWs`. -/
def collapseWsStr (s : String) : String := ⟨collapseWs s.data⟩

/-- JS `replace(/c/g, '')` for a single character `c`. -/
def removeAll (c : Char) (l : List Char) : List Char :=
  l.filter (fun x => x ≠ c)

/-- No two adjacent space characters. -/
def noTwoSpaces : List Char → Bool
  | c1 :: c2 :: rest => !(c1 = ' ' && c2 = ' ') && noTwoSpaces (c2 :: rest)
  | _ => true

/-- Scanning invariant for collapsed text: every whitespace character is a
single `' '` and no space directly follows a space (`prev` records whether
the previous character was a space). -/
def okAfter : Bool → List Char → Bool
  | _, [] => true
  | prev, c :: cs =>
    if jsWs c then (c = ' ' && !prev) && okAfter true cs else okAfter false cs

/-! ## The metadata removal patterns

`METADATA_PATTERNS` of the main script (part of the repository twice, the
identical `QTI_METADATA_PATTERNS` list in `js/qti_export.js`).  Every
matcher takes the text starting at a candidate position and returns the
length of the (unique) regex match starting there, if any. -/

/-- Consume one expected character; returns consumed length and rest. -/
def eatCharX (c : Char) : List Char → Option (Nat × List Char)
  | x :: xs => if x = c then some (1, xs) else none
  | [] => none

/-- Consume a literal case-insensitively (regex `/i` flag). -/
def eatLitCI (lit : String) (l : List Char) : Option (Nat × List Char) :=
  let rec go : List Char → List Char → Option (Nat × List Char)
    | [], rest => some (0, rest)
    | k :: ks, x :: xs =>
      if x.toLower = k.toLower then
        match go ks xs with
        | some (n, rest) => some (n + 1, rest)
        | none => none
      else none
    | _ :: _, [] => none
  go lit.data l

/-- Count of leading decimal digits. -/
def takeDigits : List Char → Nat
  | c :: cs => if c.isDigit then takeDigits cs + 1 else 0
  | [] => 0

/-- Count of leading JS whitespace characters. -/
def takeWs : List Char → Nat
  | c :: cs => if jsWs c then takeWs cs + 1 else 0
  | [] => 0

/-- Consume `\d+`. -/
def eatDigits1 (l : List Char) : Option (Nat × List Char) :=
  let d := takeDigits l
  if d = 0 then none else some (d, l.drop d)

/-- Consume `\s+` (`min1 = true`) or `\s*` (`min1 = false`). -/
def eatWsRun (min1 : Bool) (l : List Char) : Option (Nat × List Char) :=
  let w := takeWs l
  if min1 && w = 0 then none else some (w, l.drop w)

/-- Consume one of several literals, case-insensitively, in alternation
order. -/
def eatAltCI (lits : List String) (l : List Char) : Option (Nat × List Char) :=
  match lits with
  | [] => none
  | k :: ks =>
    match eatLitCI k l with
    | some r => some r
    | none => eatAltCI ks l

/-- Regex `\(LO\d+\)` (case-insensitive): match length at this position. -/
def pLO (l : List Char) : Option Nat := do
  let (a, l) ← eatCharX '(' l
  let (b, l) ← eatLitCI "LO" l
  let (c, l) ← eatDigits1 l
  let (d, _) ← eatCharX ')' l
  some (a + b + c + d)

/-- Regex `\(CLO\d+\)`. -/
def pCLO (l : List Char) : Option Nat := do
  let (a, l) ← eatCharX '(' l
  let (b, l) ← eatLitCI "CLO" l
  let (c, l) ← eatDigits1 l
  let (d, _) ← eatCharX ')' l
  some (a + b + c + d)

/-- Regex `\[Module\s+\d+\]` (`min1 = true`) and `\[Module\s*\d+\]`
(`min1 = false`), with the bracketed word given by `word` (the list holds
an English and an Arabic variant of each). -/
def pBracketWord (word : String) (min1 : Bool) (l : List Char) : Option Nat := do
  let (a, l) ← eatCharX '[' l
  let (b, l) ← eatLitCI word l
  let (c, l) ← eatWsRun min1 l
  let (d, l) ← eatDigits1 l
  let (e, _) ← eatCharX ']' l
  some (a + b + c + d + e)

/-- Regex `Level?:` — `Leve`, an optional `l`, then `:` (the source
pattern tolerates the `Leve:` misspelling). -/
def eatLevelColon : List Char → Option (Nat × List Char)
  | c1 :: c2 :: rest =>
    if c1.toLower = 'l' && c2 = ':' then some (2, rest)
    else if c1 = ':' then some (1, c2 :: rest) else none
  | c1 :: rest => if c1 = ':' then some (1, rest) else none
  | [] => none

/-- Regex `\[Difficulty\s+Level?:\s*(Low|Mid|High)\]`. -/
def pDifficulty (l : List Char) : Option Nat := do
  let (a, l) ← eatCharX '[' l
  let (b, l) ← eatLitCI "Difficulty" l
  let (c, l) ← eatWsRun true l
  let (d, l) ← eatLitCI "Leve" l
  let (e, l) ← eatLevelColon l
  let (f, l) ← eatWsRun false l
  let (g, l) ← eatAltCI ["Low", "Mid", "High"] l
  let (h, _) ← eatCharX ']' l
  some (a + b + c + d + e + f + g + h)

/-- Regex `\[مستوى\s+الصعوبة:\s*(منخفض|متوسط|عالي|Low|Mid|High)\]`. -/
def pDifficultyAr (l : List Char) : Option Nat := do
  let (a, l) ← eatCharX '[' l
  let (b, l) ← eatLitCI "مستوى" l
  let (c, l) ← eatWsRun true l
  let (d, l) ← eatLitCI "الصعوبة" l
  let (e, l) ← eatCharX ':' l
  let (f, l) ← eatWsRun false l
  let (g, l) ← eatAltCI ["منخفض", "متوسط", "عالي", "Low", "Mid", "High"] l
  let (h, _) ← eatCharX ']' l
  some (a + b + c + d + e + f + g + h)

/-- Scan for the first closing bracket: returns the window of characters
before it and the distance consumed including the close. -/
def windowScan (closeC : Char) : List Char → Option (List Char × Nat)
  | [] => none
  | c :: cs =>
    if c = closeC then some ([], 1)
    else
      match windowScan closeC cs with
      | some (w, n) => some (c :: w, n + 1)
      | none => none

/-- Regexes of the shape `\(open [^close]* (?:kw|…) [^close]* close\)`:
such a pattern matches at a position exactly when the position holds
`openC`, a `closeC` follows, and a keyword occurs case-insensitively in
the window before the first `closeC`; the match runs to that close. -/
def groupPat (openC closeC : Char) (kws : List String) (l : List Char) : Option Nat :=
  match l with
  | c :: rest =>
    if c = openC then
      match windowScan closeC rest with
      | some (w, n) => if kws.any (fun k => containsSubCI w k) then some (n + 1) else none
      | none => none
    else none
  | [] => none

/-- The ordered pattern list `METADATA_PATTERNS` (= `QTI_METADATA_PATTERNS`):
learning outcomes, module tags, difficulty tags, author attributions, and
the two catch-all keyword groups, in source order. -/
def METADATA_PATTERNS : List (List Char → Option Nat) :=
  [pLO, pCLO,
   pBracketWord "Module" true, pBracketWord "الوحدة" true,
   pBracketWord "Module" false, pBracketWord "الوحدة" false,
   pDifficulty, pDifficultyAr,
   groupPat '(' ')' ["Dr.", "La.", "Dr", "Author", "د.", "دكتور", "المؤلف"],
   groupPat '(' ')' ["Dr"],
   groupPat '(' ')' ["د"],
   groupPat '(' ')' ["LO", "CLO", "Module", "Difficulty", "Level", "Author"],
   groupPat '[' ']' ["Module", "Difficulty", "Level", "Author", "وحدة", "صعوبة", "مستوى"]]

/-- JS `String.prototype.replace(pattern, '')` with the `/g` flag: scan
left to right, delete each leftmost match and continue after it (newly
formed junctions are not rescanned in the same call).  `fuel` bounds the
recursion by the input length; every pattern match consumes at least its
first character. -/
def replaceRunAux (m : List Char → Option Nat) : Nat → List Char → List Char
  | 0, l => l
  | _ + 1, [] => []
  | fuel + 1, c :: cs =>
    match m (c :: cs) with
    | some n => replaceRunAux m fuel (List.drop (n - 1) cs)
    | none => c :: replaceRunAux m fuel cs

/-- One global-replace-with-empty pass of a single pattern. -/
def replaceRun (m : List Char → Option Nat) (l : List Char) : List Char :=
  replaceRunAux m l.length l

/-- One pass of the removal loop: apply all patterns in order, each as a
global replace on the result of the previous one. -/
def stripPass (l : List Char) : List Char :=
  METADATA_PATTERNS.foldl (fun acc m => replaceRun m acc) l

/-- The do/while removal loop of `stripSEUMetadata`: repeat `stripPass`
while the length still shrinks, at most `fuel` (= 5) times. -/
def stripLoop : Nat → List Char → List Char
  | 0, l => l
  | fuel + 1, l =>
    let l2 := stripPass l
    if l2.length = l.length then l2 else stripLoop fuel l2

/-- `stripSEUMetadata` (main script): remove the metadata patterns to a
fixed point (capped at 5 passes), then collapse whitespace runs to single
spaces and trim.  The `typeof`/falsy guard of the source is the identity
on strings. -/
def stripSEUMetadata (s : String) : String :=
  ⟨collapseWs (stripLoop 5 s.data)⟩

/-- `stripQTIMetadata` (`js/qti_export.js`): byte-for-byte the same
pattern list and removal loop as `stripSEUMetadata`. -/
def stripQTIMetadata (s : String) : String :=
  stripSEUMetadata s

/-- `matchFreeB m l`: the pattern `m` matches at no position of `l`
("no metadata pattern matches" in the specification's words). -/
def matchFreeB (m : List Char → Option Nat) : List Char → Bool
  | [] => (m []).isNone
  | c :: cs => (m (c :: cs)).isNone && matchFreeB m cs

/-- All thirteen metadata patterns are match-free on `s`. -/
def allPatternsFree (s : String) : Bool :=
  METADATA_PATTERNS.all (fun m => matchFreeB m s.data)

/-! ## Question numbering and line preparation -/

/-- Regex `^\d+\.\s+` (pattern `NUMBERED`): match length, if the text
starts with digits, a period and whitespace. -/
def matchNumberedLen (l : List Char) : Option Nat :=
  let d := takeDigits l
  if d = 0 then none
  else
    match l.drop d with
    | '.' :: rest =>
      let w := takeWs rest
      if w = 0 then none else some (d + 1 + w)
    | _ => none

/-- One letter of the class `[a-z؀-ۿ]` with the `/i` flag. -/
def isChoiceLetter (c : Char) : Bool :=
  ('a' ≤ c.toLower && c.toLower ≤ 'z') || (0x600 ≤ c.val && c.val ≤ 0x6FF)

/-- Regex `^[a-z؀-ۿ]\)\s+` (pattern `LETTERED`). -/
def matchLetteredLen (l : List Char) : Option Nat :=
  match l with
  | c :: ')' :: rest =>
    if isChoiceLetter c then
      let w := takeWs rest
      if w = 0 then none else some (2 + w)
    else none
  | _ => none

/-- `extractQuestionPrefix` of the source, restricted to its `cleaned`
component (the only one the converters use): remove a leading numbered
marker, otherwise a leading lettered marker, and trim. -/
def extractQuestionMarker (s : String) : String :=
  match matchNumberedLen s.data with
  | some n => trimStr ⟨s.data.drop n⟩
  | none =>
    match matchLetteredLen s.data with
    | some n => trimStr ⟨s.data.drop n⟩
    | none => trimStr s

/-- `text.split('\n').map(line => line.trim()).filter(line => line !== '')`
— the line preparation shared by every block parser. -/
def prepLines (s : String) : List String :=
  (((jsSplit '\n' s.data).map (fun l => (⟨trimJS l⟩ : String))).filter (fun x => x ≠ ""))

/-- Regex `^[a-z؀-ۿ]\)?\s*\.?\s*` (choice-letter marker with
optional `)`/`.`): since everything is optional after the letter and
nothing follows in the pattern, the greedy sequential reading is exact.
Without a leading letter the replace is the identity. -/
def dropChoiceMarker (l : List Char) : List Char :=
  match l with
  | c :: rest =>
    if isChoiceLetter c then
      let r1 := match rest with
                | ')' :: r => r
                | _ => rest
      let r2 := r1.drop (takeWs r1)
      let r3 := match r2 with
                | '.' :: r => r
                | _ => r2
      r3.drop (takeWs r3)
    else l
  | [] => l

/-! ## Typed records (XML path) -/

/-- A parsed choice; the per-choice `generateUUID()` identifier of the
source is nondeterministic and not modelled. -/
structure Choice where
  text : String
  isCorrect : Bool
deriving DecidableEq, Repr

/-- Record returned by `parseMCQData`/`parseMAData` (`type`, `question`,
`choices` in the source; `type` is spelled `qtype` here). -/
structure QTIMCQData where
  qtype : String
  question : String
  choices : List Choice
deriving DecidableEq, Repr

/-- Record returned by `parseTFData`. -/
structure QTITFData where
  question : String
  correctAnswer : Bool
deriving DecidableEq, Repr

/-- Record returned by `parseNumericData`; `id` stands for the
`generateUUID()` token, supplied as a parameter. -/
structure QTINumericData where
  id : String
  question : String
  answer : String
  tolerance : Option String
deriving DecidableEq, Repr

/-! ## Tab-delimited block parsers (main script, part_000 version) -/

/-- The shared choice-line processing of `parseMCQ`/`parseMultipleAnswer`
(the loop bodies are identical in the two source functions): strip
metadata, record the `*` marker, drop the letter marker, remove every `*`,
trim; empty results are skipped. -/
def choiceOfLine (line : String) : Option Choice :=
  let choiceLine := stripSEUMetadata line
  let isCorrect := choiceLine.data.contains '*'
  let c1 := trimStr ⟨dropChoiceMarker choiceLine.data⟩
  let c2 := trimStr ⟨removeAll '*' c1.data⟩
  if c2 = "" then none else some ⟨c2, isCorrect⟩

/-- Render `\t choice \t correct|incorrect` cells in choice order. -/
def choiceCells (cs : List Choice) : String :=
  cs.foldl (fun acc c =>
    acc ++ "\t" ++ c.text ++ "\t" ++ (if c.isCorrect then "correct" else "incorrect")) ""

/-- `parseMCQ`: split-and-trim lines first, strip metadata per line,
validate, and render the `MC` row.  Thrown messages are modelled as
`Except.error` with the catch-block wrapping already applied. -/
def parseMCQ (text : String) : Except String String :=
  let rawLines := prepLines text
  if rawLines.length < 2 then
    .error "MCQ parsing error: MCQ must have at least a question and one choice"
  else
    let question := extractQuestionMarker (stripSEUMetadata (rawLines.headD ""))
    if question = "" then .error "MCQ parsing error: MCQ question text is required"
    else
      let choices := rawLines.tail.filterMap choiceOfLine
      if choices.length = 0 then
        .error "MCQ parsing error: MCQ must have at least one choice"
      else if (choices.filter (fun c => c.isCorrect)).length = 0 then
        .error "MCQ parsing error: MCQ must have at least one correct answer"
      else
        .ok ("MC" ++ "\t" ++ question ++ choiceCells choices)

/-- `parseMultipleAnswer`: the near-duplicate of `parseMCQ` in the source,
with the `MA` kind token and its own messages. -/
def parseMultipleAnswer (text : String) : Except String String :=
  let rawLines := prepLines text
  if rawLines.length < 2 then
    .error "Multiple Answer parsing error: Multiple Answer must have at least a question and one choice"
  else
    let question := extractQuestionMarker (stripSEUMetadata (rawLines.headD ""))
    if question = "" then .error "Multiple Answer parsing error: Multiple Answer question text is required"
    else
      let choices := rawLines.tail.filterMap choiceOfLine
      if choices.length = 0 then
        .error "Multiple Answer parsing error: Multiple Answer must have at least one choice"
      else if (choices.filter (fun c => c.isCorrect)).length = 0 then
        .error "Multiple Answer parsing error: Multiple Answer must have at least one correct answer"
      else
        .ok ("MA" ++ "\t" ++ question ++ choiceCells choices)

/-- `parseEssay`: strip the whole block, drop the marker, render `ESS`
with the trailing empty example field. -/
def parseEssay (text : String) : Except String String :=
  let question := extractQuestionMarker (stripSEUMetadata text)
  if question = "" then .error "Essay parsing error: Essay question text is required"
  else .ok ("ESS" ++ "\t" ++ question ++ "\t")

/-- The answer scan of `parseTrueFalse`: walk the lines after the first;
a line whose lowercased text contains "true" and that contains `*` yields
"true" and stops (the source `break`s); otherwise a line containing
"false" and `*` yields "false" and stops; otherwise keep scanning;
default "false". -/
def tfScan : List String → String
  | [] => "false"
  | l :: ls =>
    if containsSub (lowerList l.data) "true".data && l.data.contains '*' then "true"
    else if containsSub (lowerList l.data) "false".data && l.data.contains '*' then "false"
    else tfScan ls

/-- `parseTrueFalse`: strip metadata from the whole block (which also
collapses its newlines), split into lines, extract the question, scan for
the marked answer, render the `TF` row. -/
def parseTrueFalse (text : String) : Except String String :=
  let lines := prepLines (stripSEUMetadata text)
  if lines.length < 1 then
    .error "True/False parsing error: True/False question text is required"
  else
    let question := extractQuestionMarker (lines.headD "")
    if question = "" then .error "True/False parsing error: True/False question text is required"
    else .ok ("TF" ++ "\t" ++ question ++ "\t" ++ tfScan lines.tail)

/-- `parseFillInBlank` (lines first, per-line stripping): every non-empty
stripped line after the first is an accepted answer. -/
def parseFillInBlank (text : String) : Except String String :=
  let rawLines := prepLines text
  if rawLines.length < 1 then
    .error "Fill in the Blank parsing error: Fill in the Blank question text is required"
  else
    let question := extractQuestionMarker (stripSEUMetadata (rawLines.headD ""))
    if question = "" then
      .error "Fill in the Blank parsing error: Fill in the Blank question text is required"
    else
      let answers := rawLines.tail.filterMap (fun line =>
        let a := trimStr (stripSEUMetadata line)
        if a = "" then none else some a)
      if answers.length = 0 then
        .error "Fill in the Blank parsing error: Fill in the Blank must have at least one answer"
      else
        .ok ("FIB" ++ "\t" ++ question ++ answers.foldl (fun acc a => acc ++ "\t" ++ a) "")

/-- A matching pair (`answer` = left token, `matching` = rest of the line). -/
structure MatchPair where
  answer : String
  matching : String
deriving DecidableEq, Repr

/-- JS `line.split(/\s+/).filter(p => p !== '')`: the maximal non-whitespace
tokens of a line, in order (`fuel` bounds recursion by the length). -/
def wsTokensAux : Nat → List Char → List (List Char)
  | 0, _ => []
  | _ + 1, [] => []
  | fuel + 1, c :: cs =>
    if jsWs c then wsTokensAux fuel cs
    else
      let tok := (c :: cs).takeWhile (fun x => !jsWs x)
      tok :: wsTokensAux fuel ((c :: cs).dropWhile (fun x => !jsWs x))

/-- Token split of a line on whitespace. -/
def wsTokens (l : List Char) : List (List Char) :=
  wsTokensAux l.length l

/-- JS `parts.slice(1).join(' ')`. -/
def joinSpace : List (List Char) → String
  | [] => ""
  | [t] => ⟨t⟩
  | t :: ts => (⟨t⟩ : String) ++ " " ++ joinSpace ts

/-- `parseMatching`: strip the whole block (collapsing newlines), split
into lines, then read `left right...` pairs from the lines after the
first; lines with fewer than two tokens are skipped. -/
def parseMatching (text : String) : Except String String :=
  let lines := prepLines (stripSEUMetadata text)
  if lines.length < 2 then
    .error "Matching parsing error: Matching must have at least a question and one answer pair"
  else
    let question := extractQuestionMarker (lines.headD "")
    if question = "" then .error "Matching parsing error: Matching question text is required"
    else
      let pairs := lines.tail.filterMap (fun line =>
        let parts := wsTokens line.data
        if parts.length ≥ 2 then
          some (⟨⟨parts.headD []⟩, joinSpace parts.tail⟩ : MatchPair)
        else none)
      if pairs.length = 0 then
        .error "Matching parsing error: Matching must have at least one answer pair"
      else
        .ok ("MAT" ++ "\t" ++ question
          ++ pairs.foldl (fun acc p => acc ++ "\t" ++ p.answer ++ "\t" ++ p.matching) "")

/-- The question field of `parseNumericResponse` (first prepared line,
metadata-stripped, marker removed). -/
def numericQuestion (text : String) : String :=
  extractQuestionMarker (stripSEUMetadata ((prepLines text).headD ""))

/-- The answer field of `parseNumericResponse` (second prepared line,
stripped and trimmed; empty when absent). -/
def numericAnswer (text : String) : String :=
  if (prepLines text).length > 1 then trimStr (stripSEUMetadata ((prepLines text)[1]?.getD ""))
  else ""

/-- The tolerance field of `parseNumericResponse` (third prepared line,
stripped and trimmed; empty when absent). -/
def numericTolerance (text : String) : String :=
  if (prepLines text).length > 2 then trimStr (stripSEUMetadata ((prepLines text)[2]?.getD ""))
  else ""

/-- `parseNumericResponse` (lines first, per-line stripping): `NUM`,
question, answer, and the tolerance cell appended only when non-empty. -/
def parseNumericResponse (text : String) : Except String String :=
  if (prepLines text).length < 1 then
    .error "Numeric Response parsing error: Numeric Response question text is required"
  else if numericQuestion text = "" then
    .error "Numeric Response parsing error: Numeric Response question text is required"
  else if numericAnswer text = "" then
    .error "Numeric Response parsing error: Numeric Response must have an answer"
  else
    .ok ("NUM" ++ "\t" ++ numericQuestion text ++ "\t" ++ numericAnswer text
      ++ (if numericTolerance text ≠ "" then "\t" ++ numericTolerance text else ""))

/-! ## QTI (XML path) parsers -/

/-- Choice-line processing of `parseMCQData` (`js/qti_export.js`): as in
the tab path but with a single trailing trim
(prefix replace, star replace, one `trim()`). -/
def qtiChoiceOf (line : String) : Option Choice :=
  let choiceLine := stripQTIMetadata line
  let isCorrect := choiceLine.data.contains '*'
  let choice := trimStr ⟨removeAll '*' (dropChoiceMarker choiceLine.data)⟩
  if choice = "" then none else some ⟨choice, isCorrect⟩

/-- `parseMCQData`: the XML-path multiple-choice parser (returns `null`
on failure). -/
def parseMCQData (text : String) : Option QTIMCQData :=
  let rawLines := prepLines text
  if rawLines.length < 2 then none
  else
    let question := extractQuestionMarker (stripQTIMetadata (rawLines.headD ""))
    if question = "" then none
    else
      let choices := rawLines.tail.filterMap qtiChoiceOf
      if choices.length = 0 || !(choices.any (fun c => c.isCorrect)) then none
      else some ⟨"MCQ", question, choices⟩

/-- `parseMAData`: the source calls `parseMCQData` and relabels the type
field to `MA`. -/
def parseMAData (text : String) : Option QTIMCQData :=
  (parseMCQData text).map (fun d => { d with qtype := "MA" })

/-- The answer loop of `parseTFData`: only a line containing "true" (after
lowercasing) and `*` assigns, and it assigns `true`; there is no
false-branch, and scanning continues to the end. -/
def tfDataScan (ls : List String) : Bool :=
  ls.foldl (fun acc l =>
    if containsSub (lowerList l.data) "true".data && l.data.contains '*' then true else acc) false

/-- `parseTFData`: strip the whole block, split into lines, extract the
question, run the true-only scan (default `false`). -/
def parseTFData (text : String) : Option QTITFData :=
  let lines := prepLines (stripQTIMetadata text)
  if lines.length < 1 then none
  else
    let question := extractQuestionMarker (lines.headD "")
    if question = "" then none
    else some ⟨question, tfDataScan lines.tail⟩

/-- `parseNumericData`: question from the first line, answer from the
second, optional tolerance from the third; `uid` stands for the
`generateUUID()` call. -/
def parseNumericData (uid : String) (text : String) : Option QTINumericData :=
  let rawLines := prepLines text
  if rawLines.length < 2 then none
  else
    let question := extractQuestionMarker (stripQTIMetadata (rawLines.headD ""))
    if question = "" then none
    else
      some ⟨uid, question, stripQTIMetadata ((rawLines[1]?).getD ""),
        if rawLines.length > 2 then some (stripQTIMetadata ((rawLines[2]?).getD "")) else none⟩

/-! ## XML generation -/

/-- `escapeXML`: successive global replaces of the five reserved XML
characters, `&` first. -/
def escapeXML (s : String) : String :=
  if s = "" then ""
  else
    let r := fun (c : Char) (rep : String) (t : String) =>
      (⟨(t.data.map (fun x => if x = c then rep.data else [x])).flatten⟩ : String)
    r '\'' "&apos;" (r '"' "&quot;" (r '>' "&gt;" (r '<' "&lt;" (r '&' "&amp;" s))))

/-- `generateNumericXML`: the numeric-response item document.  The
question text passes through `escapeXML`; the answer is interpolated into
the `correctResponse` value verbatim (`${data.answer}` in the source). -/
def generateNumericXML (data : QTINumericData) : String :=
  "<?xml version=\"1.0\" encoding=\"UTF-8\"?>\n"
  ++ "<assessmentItem xmlns=\"http://www.imsglobal.org/xsd/imsqti_v2p1\"\n"
  ++ "    xmlns:ns9=\"http://www.imsglobal.org/xsd/apip/apipv1p0/imsapip_qtiv1p0\"\n"
  ++ "    xmlns:ns8=\"http://www.w3.org/1999/xlink\"\n"
  ++ "    xmlns:xsi=\"http://www.w3.org/2001/XMLSchema-instance\"\n"
  ++ "    xsi:schemaLocation=\"http://www.imsglobal.org/xsd/imsqti_v2p1 http://www.imsglobal.org/xsd/qti/qtiv2p1/imsqti_v2p1.xsd\"\n"
  ++ "    identifier=\"" ++ data.id ++ "\" title=\"\" adaptive=\"false\" timeDependent=\"false\">\n"
  ++ "  <responseDeclaration identifier=\"RESPONSE\" cardinality=\"single\" baseType=\"float\">\n"
  ++ "    <correctResponse>\n"
  ++ "      <value>" ++ data.answer ++ "</value>\n"
  ++ "    </correctResponse>\n"
  ++ "  </responseDeclaration>\n"
  ++ "  <outcomeDeclaration identifier=\"SCORE\" cardinality=\"single\" baseType=\"float\">\n"
  ++ "    <defaultValue><value>0</value></defaultValue>\n"
  ++ "  </outcomeDeclaration>\n"
  ++ "  <outcomeDeclaration identifier=\"MAXSCORE\" cardinality=\"single\" baseType=\"float\">\n"
  ++ "    <defaultValue><value>0</value></defaultValue>\n"
  ++ "  </outcomeDeclaration>\n"
  ++ "  <itemBody>\n"
  ++ "    <div>\n"
  ++ "      <div>" ++ escapeXML data.question ++ "</div>\n"
  ++ "    </div>\n"
  ++ "    <textEntryInteraction responseIdentifier=\"RESPONSE\"/>\n"
  ++ "  </itemBody>\n"
  ++ "</assessmentItem>"

/-! ## Conversion driver (tab-delimited path) -/

/-- The per-kind `forEach` of `convertQuestions`: parse each block; a
success appends its row, a failure appends
`"<label> Question <index+1>: <message>"` to the error list, and
processing continues with the next block either way. -/
def processBlocksFrom (label : String) (parse : String → Except String String) :
    Nat → List String → List String × List String
  | _, [] => ([], [])
  | i, b :: bs =>
    let rest := processBlocksFrom label parse (i + 1) bs
    match parse b with
    | .ok row => (row :: rest.1, rest.2)
    | .error msg => (rest.1, (label ++ " Question " ++ toString (i + 1) ++ ": " ++ msg) :: rest.2)

/-- Process one kind's block list from index 0. -/
def processBlocks (label : String) (parse : String → Except String String)
    (blocks : List String) : List String × List String :=
  processBlocksFrom label parse 0 blocks

/-- `convertQuestions` (tab-delimited path), with the UI textareas already
split into per-kind block lists: runs the seven kinds in source order and
returns the successful rows (joined with newlines by the UI) together
with all collected per-block failure reasons. -/
def convertQuestions (mcq essay tf fib ma mat num : List String) :
    List String × List String :=
  let pMCQ := processBlocks "MCQ" parseMCQ mcq
  let pESS := processBlocks "Essay" parseEssay essay
  let pTF := processBlocks "True/False" parseTrueFalse tf
  let pFIB := processBlocks "Fill in the Blank" parseFillInBlank fib
  let pMA := processBlocks "Multiple Answer" parseMultipleAnswer ma
  let pMAT := processBlocks "Matching" parseMatching mat
  let pNUM := processBlocks "Numeric Response" parseNumericResponse num
  (pMCQ.1 ++ pESS.1 ++ pTF.1 ++ pFIB.1 ++ pMA.1 ++ pMAT.1 ++ pNUM.1,
   pMCQ.2 ++ pESS.2 ++ pTF.2 ++ pFIB.2 ++ pMA.2 ++ pMAT.2 ++ pNUM.2)

/-- Specification-side view of a block's contribution to the successful
output: its row when the parser succeeds, nothing when it fails. -/
def okRow (parse : String → Except String String) (b : String) : Option String :=
  (parse b).toOption

/-- Specification-side view of the collected failure reasons of a block
list: index-stamped messages of exactly the failing blocks, in order. -/
def errRows (label : String) (parse : String → Except String String)
    (blocks : List String) : List String :=
  blocks.enum.filterMap (fun p =>
    match parse p.2 with
    | .ok _ => none
    | .error e => some (label ++ " Question " ++ toString (p.1 + 1) ++ ": " ++ e))

/-! ## Row accessors used in statements -/

/-- Split a rendered row on tab characters. -/
def splitTabRow (r : String) : List String :=
  (jsSplit '\t' r.data).map (fun l => (⟨l⟩ : String))

/-- The last tab-separated field of a row (the answer field of a `TF` row). -/
def lastTabField (r : String) : String :=
  (splitTabRow r).getLastD ""

/-- The true/false scan semantics asserted by the specification: scanning
continues through all lines and a later marked line overwrites an earlier
one (the last marked line is authoritative); default `false`. -/
def lastMarkedScan (ls : List String) : Bool :=
  ls.foldl (fun acc l =>
    if containsSub (lowerList l.data) "true".data && l.data.contains '*' then true
    else if containsSub (lowerList l.data) "false".data && l.data.contains '*' then false
    else acc) false

/-! ## Helper lemmas: strings -/

/-- Rebuilding a string from its characters is the identity. -/
theorem strMkData (s : String) : (⟨s.data⟩ : String) = s := rfl

/-- Characters of an appended string. -/
theorem strDataAppend (a b : String) : (a ++ b).data = a.data ++ b.data := rfl

/-- String append is associative. -/
theorem strAppendAssoc (a b c : String) : a ++ b ++ c = a ++ (b ++ c) := by
  apply congrArg String.mk ?_ |>.trans rfl |>.symm |>.trans rfl |>.symm
  show a.data ++ b.data ++ c.data = a.data ++ (b.data ++ c.data)
  exact List.append_assoc _ _ _

/-- Appending the empty string is the identity. -/
theorem strAppendEmpty (a : String) : a ++ "" = a := by
  have : (a ++ "").data = a.data := by
    rw [strDataAppend]; exact List.append_nil _
  calc a ++ "" = ⟨(a ++ "").data⟩ := rfl
    _ = ⟨a.data⟩ := by rw [this]
    _ = a := rfl

/-- Two strings with the same characters are equal. -/
theorem strEta (a b : String) (h : a.data = b.data) : a = b := by
  calc a = ⟨a.data⟩ := rfl
    _ = ⟨b.data⟩ := by rw [h]
    _ = b := rfl

/-- Left cancellation for string append. -/
theorem strAppendLeftCancel (a b c : String) (h : a ++ b = a ++ c) : b = c := by
  apply strEta
  have hd : a.data ++ b.data = a.data ++ c.data := by
    rw [← strDataAppend, ← strDataAppend, h]
  exact List.append_cancel_left hd

/-! ## Helper lemmas: the collapse invariant -/

/-- Collapsed text satisfies the `okAfter` invariant (mutual statement for
`collapseRuns` and `skipWs`). -/
theorem collapseRuns_okAfter : ∀ l : List Char,
    okAfter false (collapseRuns l) = true ∧ okAfter true (skipWs l) = true := by
  intro l
  induction l with
  | nil => exact ⟨rfl, rfl⟩
  | cons c cs ih =>
    cases h : jsWs c with
    | true =>
      refine ⟨?_, ?_⟩
      · rw [collapseRuns]
        simp only [h, if_true]
        rw [okAfter]
        have hws : jsWs ' ' = true := by decide
        simp [hws, ih.2]
      · rw [skipWs]
        simp only [h, if_true]
        exact ih.2
    | false =>
      refine ⟨?_, ?_⟩
      · rw [collapseRuns]
        simp only [h, Bool.false_eq_true, if_false]
        rw [okAfter]
        simp [h, ih.1]
      · rw [skipWs]
        simp only [h, Bool.false_eq_true, if_false]
        rw [okAfter]
        simp [h, ih.1]

/-- In a list satisfying the collapse invariant, every whitespace
character is a plain space. -/
theorem okAfter_mem_space : ∀ (l : List Char) (prev : Bool),
    okAfter prev l = true → ∀ c ∈ l, jsWs c = true → c = ' ' := by
  intro l
  induction l with
  | nil => intro prev _ c hc; cases hc
  | cons d ds ih =>
    intro prev hok c hc hw
    rw [okAfter] at hok
    cases hd : jsWs d with
    | true =>
      simp only [hd, if_true, Bool.and_eq_true, decide_eq_true_eq] at hok
      rcases List.mem_cons.mp hc with rfl | hc
      · exact hok.1.1
      · exact ih true hok.2 c hc hw
    | false =>
      simp only [hd, Bool.false_eq_true, if_false] at hok
      rcases List.mem_cons.mp hc with rfl | hc
      · rw [hd] at hw; cases hw
      · exact ih false hok c hc hw

/-- The collapse invariant rules out two adjacent spaces. -/
theorem okAfter_noTwoSpaces : ∀ (l : List Char) (prev : Bool),
    okAfter prev l = true → noTwoSpaces l = true := by
  intro l
  induction l with
  | nil => intro prev _; rfl
  | cons d ds ih =>
    intro prev hok
    rw [okAfter] at hok
    cases ds with
    | nil => rfl
    | cons e es =>
      rw [noTwoSpaces]
      cases hd : jsWs d with
      | true =>
        rw [hd] at hok
        simp only [if_true, Bool.and_eq_true, decide_eq_true_eq] at hok
        have htail := ih true hok.2
        have hnot : ¬(d = ' ' ∧ e = ' ') := by
          rintro ⟨rfl, rfl⟩
          rw [okAfter] at hok
          have hws : jsWs ' ' = true := by decide
          simp [hws] at hok
        simp [htail]
        exact not_and_or.mp hnot
      | false =>
        rw [hd] at hok
        simp only [Bool.false_eq_true, if_false] at hok
        have htail := ih false hok
        have hdne : d ≠ ' ' := by
          intro hde; rw [hde] at hd; cases hd
        simp [htail, hdne]

/-- `dropTrailingWs` yields a prefix of its input. -/
theorem dropTrailingWs_isPre : ∀ l : List Char, ∃ ys, l = dropTrailingWs l ++ ys := by
  intro l
  induction l with
  | nil => exact ⟨[], rfl⟩
  | cons c cs ih =>
    rw [dropTrailingWs]
    rcases ih with ⟨ys, hys⟩
    by_cases h : (dropTrailingWs cs).isEmpty && jsWs c
    · refine ⟨c :: cs, ?_⟩
      simp [h]
    · refine ⟨ys, ?_⟩
      rw [if_neg h, List.cons_append, ← hys]

/-- Membership survives `dropTrailingWs`. -/
theorem mem_dropTrailingWs {c : Char} : ∀ {l : List Char}, c ∈ dropTrailingWs l → c ∈ l := by
  intro l hc
  rcases dropTrailingWs_isPre l with ⟨ys, hys⟩
  rw [hys]
  exact List.mem_append_left _ hc

/-- `dropWhile` yields a suffix of its input. -/
theorem dropWhile_isSuf (p : Char → Bool) : ∀ l : List Char, ∃ xs, l = xs ++ l.dropWhile p := by
  intro l
  induction l with
  | nil => exact ⟨[], rfl⟩
  | cons c cs ih =>
    rw [List.dropWhile]
    by_cases h : p c
    · rcases ih with ⟨xs, hxs⟩
      refine ⟨c :: xs, ?_⟩
      simp [h]
      exact hxs
    · exact ⟨[], by simp [h]⟩

/-- Membership survives `dropWhile`. -/
theorem mem_dropWhile {c : Char} (p : Char → Bool) {l : List Char}
    (hc : c ∈ l.dropWhile p) : c ∈ l := by
  rcases dropWhile_isSuf p l with ⟨xs, hxs⟩
  rw [hxs]
  exact List.mem_append_right _ hc

/-- Membership survives `trimJS`. -/
theorem mem_trimJS {c : Char} {l : List Char} (hc : c ∈ trimJS l) : c ∈ l := by
  exact mem_dropWhile jsWs (mem_dropTrailingWs hc)

/-- `noTwoSpaces` restricts to prefixes. -/
theorem noTwoSpaces_append_left : ∀ (xs ys : List Char),
    noTwoSpaces (xs ++ ys) = true → noTwoSpaces xs = true := by
  intro xs
  induction xs with
  | nil => intro ys _; rfl
  | cons c cs ih =>
    intro ys h
    cases cs with
    | nil => rfl
    | cons d ds =>
      rw [List.cons_append] at h
      rw [noTwoSpaces]
      rw [List.cons_append, noTwoSpaces] at h
      simp only [Bool.and_eq_true] at h ⊢
      exact ⟨h.1, ih ys h.2⟩

/-- `noTwoSpaces` restricts to suffixes along `dropWhile`. -/
theorem noTwoSpaces_tail : ∀ (c : Char) (cs : List Char),
    noTwoSpaces (c :: cs) = true → noTwoSpaces cs = true := by
  intro c cs h
  cases cs with
  | nil => rfl
  | cons d ds =>
    rw [noTwoSpaces, Bool.and_eq_true] at h
    exact h.2

/-- `noTwoSpaces` holds on `dropWhile` results. -/
theorem noTwoSpaces_dropWhile (p : Char → Bool) : ∀ l : List Char,
    noTwoSpaces l = true → noTwoSpaces (l.dropWhile p) = true := by
  intro l
  induction l with
  | nil => intro _; rfl
  | cons c cs ih =>
    intro h
    rw [List.dropWhile]
    by_cases hp : p c
    · simp only [hp, if_true]
      exact ih (noTwoSpaces_tail c cs h)
    · simp only [hp, if_false]
      exact h

/-- `noTwoSpaces` holds after trimming. -/
theorem noTwoSpaces_trimJS {l : List Char} (h : noTwoSpaces l = true) :
    noTwoSpaces (trimJS l) = true := by
  rw [trimJS]
  rcases dropTrailingWs_isPre (l.dropWhile jsWs) with ⟨ys, hys⟩
  apply noTwoSpaces_append_left _ ys
  rw [← hys]
  exact noTwoSpaces_dropWhile jsWs l h

/-- Main collapse property: every whitespace character surviving
`collapseWs` is a plain space, and no two spaces are adjacent. -/
theorem collapseWs_clean (l : List Char) :
    (∀ c ∈ collapseWs l, jsWs c = true → c = ' ')
    ∧ noTwoSpaces (collapseWs l) = true := by
  have hok := (collapseRuns_okAfter l).1
  constructor
  · intro c hc hw
    exact okAfter_mem_space (collapseRuns l) false hok c (mem_trimJS hc) hw
  · exact noTwoSpaces_trimJS (okAfter_noTwoSpaces (collapseRuns l) false hok)

/-- A newline never survives `collapseWs`. -/
theorem collapseWs_no_newline (l : List Char) : '\n' ∉ collapseWs l := by
  intro hc
  have := (collapseWs_clean l).1 '\n' hc (by decide)
  cases this

/-- A tab never survives `collapseWs`. -/
theorem collapseWs_no_tab (l : List Char) : '\t' ∉ collapseWs l := by
  intro hc
  have := (collapseWs_clean l).1 '\t' hc (by decide)
  cases this

/-! ## Helper lemmas: splitting -/

/-- Splitting a separator-free list yields that single piece. -/
theorem jsSplit_nosep (sep : Char) : ∀ l : List Char,
    sep ∉ l → jsSplit sep l = [l] := by
  intro l
  induction l with
  | nil => intro _; rfl
  | cons c cs ih =>
    intro h
    rw [jsSplit]
    have hc : c ≠ sep := fun he => h (he ▸ List.mem_cons_self c cs)
    have hcs : sep ∉ cs := fun hm => h (List.mem_cons_of_mem c hm)
    simp only [hc, if_false]
    rw [ih hcs]

/-- Splitting at the first separator. -/
theorem jsSplit_append (sep : Char) : ∀ (xs ys : List Char),
    sep ∉ xs → jsSplit sep (xs ++ sep :: ys) = xs :: jsSplit sep ys := by
  intro xs
  induction xs with
  | nil =>
    intro ys _
    show jsSplit sep (sep :: ys) = [] :: jsSplit sep ys
    rw [jsSplit]
    simp
  | cons x xs' ih =>
    intro ys h
    have hx : x ≠ sep := fun he => h (he ▸ List.mem_cons_self x xs')
    have hxs : sep ∉ xs' := fun hm => h (List.mem_cons_of_mem x hm)
    rw [List.cons_append, jsSplit]
    simp only [hx, if_false]
    rw [ih ys hxs]

/-! ## Helper lemmas: the normalizer's output -/

/-- The characters of a stripped string are a collapsed list. -/
theorem strip_data (s : String) :
    (stripSEUMetadata s).data = collapseWs (stripLoop 5 s.data) := by
  rw [stripSEUMetadata]

/-- No newline survives the normalizer. -/
theorem strip_no_newline (s : String) : '\n' ∉ (stripSEUMetadata s).data := by
  rw [strip_data]
  exact collapseWs_no_newline _

/-- No tab survives the normalizer. -/
theorem strip_no_tab (s : String) : '\t' ∉ (stripSEUMetadata s).data := by
  rw [strip_data]
  exact collapseWs_no_tab _

/-- Splitting the normalizer's output on newlines yields one piece, hence
`prepLines` of a stripped block is empty or a single line. -/
theorem prepLines_strip (s : String) :
    prepLines (stripSEUMetadata s) = []
    ∨ ∃ t : String, prepLines (stripSEUMetadata s) = [t] := by
  rw [prepLines, jsSplit_nosep '\n' _ (strip_no_newline s)]
  simp only [List.map_cons, List.map_nil]
  by_cases h : (⟨trimJS (stripSEUMetadata s).data⟩ : String) = ""
  · left
    simp [List.filter, h]
  · right
    refine ⟨⟨trimJS (stripSEUMetadata s).data⟩, ?_⟩
    simp [List.filter, h]

/-- C9: for every input string, the Metadata Normalizer's output contains
no newline or tab characters and no two consecutive spaces, and splitting
the output on newlines therefore yields exactly one piece — so a parser
that normalizes a whole block before splitting (as `parseTrueFalse`,
`parseTFData` and `parseMatchingData` do) obtains exactly one line. -/
theorem claim_C9_normalizer_single_line (s : String) :
    ((stripSEUMetadata s).data.all (fun c => !(c = '\n' || c = '\t'))) = true
    ∧ noTwoSpaces (stripSEUMetadata s).data = true
    ∧ jsSplit '\n' (stripSEUMetadata s).data = [(stripSEUMetadata s).data] := by
  refine ⟨?_, ?_, ?_⟩
  · rw [List.all_eq_true]
    intro c hc
    have h1 : c ≠ '\n' := fun he => strip_no_newline s (he ▸ hc)
    have h2 : c ≠ '\t' := fun he => strip_no_tab s (he ▸ hc)
    simp [h1, h2]
  · rw [strip_data]
    exact (collapseWs_clean _).2
  · exact jsSplit_nosep '\n' _ (strip_no_newline s)

/-- C2 (amended): because the normalizer collapses a block's newlines
before `parseTrueFalse`/`parseTFData` split on newline, the scan over
"lines after the first" never sees a marked line: every successful
`parseTrueFalse` row carries the default answer `false`, and
`parseTFData` always returns `correctAnswer = false`. -/
theorem claim_C2_tf_answer_always_false :
    (∀ (text r : String), parseTrueFalse text = .ok r →
      ∃ q, r = "TF" ++ "\t" ++ q ++ "\t" ++ "false")
    ∧ (∀ (text : String) (d : QTITFData), parseTFData text = some d →
      d.correctAnswer = false) := by
  constructor
  · intro text r hok
    rw [parseTrueFalse] at hok
    rcases prepLines_strip text with h | ⟨t, h⟩
    · rw [h] at hok
      simp at hok
    · rw [h] at hok
      simp only [List.length_cons, List.length_nil, List.headD, List.tail] at hok
      norm_num at hok
      split at hok
      · cases hok
      · refine ⟨extractQuestionMarker t, ?_⟩
        have := Except.ok.inj hok
        rw [← this]
        rfl
  · intro text d hok
    rw [parseTFData] at hok
    simp only [stripQTIMetadata] at hok
    rcases prepLines_strip text with h | ⟨t, h⟩
    · rw [h] at hok
      simp at hok
    · rw [h] at hok
      simp only [List.length_cons, List.length_nil, List.headD, List.tail] at hok
      norm_num at hok
      rw [← hok.2]
      rfl

/-- Witness for C2 (amended) at a concrete block: "5. Sky is blue." with a
marked `True*` line still yields the default answer `false`. -/
theorem claim_C2_tf_answer_always_false_witness :
    ∃ q, ("TF\tSky is blue. True* False\tfalse" : String)
      = "TF" ++ "\t" ++ q ++ "\t" ++ "false" :=
  claim_C2_tf_answer_always_false.1 "5. Sky is blue.\nTrue*\nFalse"
    "TF\tSky is blue. True* False\tfalse" (by rfl)

/-- Counterexample to C2 as stated: on the block
`"2. Snow is white.\nTrue*\nFalse"` the claimed scan semantics (marked
`True*` line sets the answer, the last marked line being authoritative)
predicts `true`, but `parseTrueFalse` answers `false` — the normalizer has
already collapsed the newlines, so the scan sees no answer lines at all
(and in the underlying scan logic the source `break`s at the first marked
line rather than letting later lines overwrite, while `parseTFData` has no
false-setting branch). -/
theorem claim_C2_counterexample :
    lastMarkedScan ["True*", "False"] = true
    ∧ (parseTrueFalse "2. Snow is white.\nTrue*\nFalse").map lastTabField
      = Except.ok "false" := by
  constructor
  · rfl
  · rfl

/-- C3: the specification's scenario B expects the row
`TF\tEarth is round.\ttrue`; the code instead collapses the block to one
line before splitting, so the marked `True*` line lands inside the
question text and the answer defaults to `false`.  This theorem records
the actual behavior at that input. -/
theorem claim_C3_scenario_b_actual :
    parseTrueFalse "1. Earth is round.\nTrue*\nFalse"
      = Except.ok "TF\tEarth is round. True* False\tfalse" := by
  rfl

/-- C4: the specification's scenario A holds on the line-first
multiple-choice parser: the `(LO1)` tag is stripped, the numbering marker
is removed, and each choice carries its correctness cell. -/
theorem claim_C4_scenario_a :
    parseMCQ "1. Capital of France? (LO1)\na. London\nb. Paris*\nc. Berlin"
      = Except.ok "MC\tCapital of France?\tLondon\tincorrect\tParis\tcorrect\tBerlin\tincorrect" := by
  rfl

/-- C1: the numeric answer value is interpolated into the generated item
document without `escapeXML`: for the block `"1. Is the value tiny?\n<5"`
the document contains the raw text `<value><5</value>`, whereas escaping
the answer would have produced `&lt;5`.  (The question text and the other
generators' texts do pass through `escapeXML`.) -/
theorem claim_C1_numeric_answer_not_escaped :
    ((parseNumericData "itemX" "1. Is the value tiny?\n<5").map
        (fun d => containsSub (generateNumericXML d).data ("<value><5</value>").data)) = some true
    ∧ escapeXML "<5" = "&lt;5" := by
  constructor
  · rfl
  · rfl

/-! ## Helper lemmas: match-free strings are fixed points of removal -/

/-- If a pattern matches nowhere, the global replace leaves the text
unchanged. -/
theorem replaceRunAux_matchFree (m : List Char → Option Nat) :
    ∀ (l : List Char) (fuel : Nat), l.length ≤ fuel → matchFreeB m l = true →
      replaceRunAux m fuel l = l := by
  intro l
  induction l with
  | nil =>
    intro fuel _ _
    cases fuel with
    | zero => rfl
    | succ f => rfl
  | cons c cs ih =>
    intro fuel hf hfree
    cases fuel with
    | zero => cases hf
    | succ f =>
      rw [matchFreeB, Bool.and_eq_true] at hfree
      rw [replaceRunAux]
      have hnone : m (c :: cs) = none := Option.isNone_iff_eq_none.mp hfree.1
      rw [hnone]
      rw [ih f (Nat.le_of_succ_le_succ hf) hfree.2]

/-- `replaceRun` version of the fixed-point lemma. -/
theorem replaceRun_matchFree (m : List Char → Option Nat) (l : List Char)
    (hfree : matchFreeB m l = true) : replaceRun m l = l :=
  replaceRunAux_matchFree m l l.length (Nat.le_refl _) hfree

/-- A fold of global replaces over patterns that all leave `l` unchanged
leaves `l` unchanged. -/
theorem foldl_replace_fixed : ∀ (ms : List (List Char → Option Nat)) (l : List Char),
    (∀ m ∈ ms, replaceRun m l = l) →
    ms.foldl (fun acc m => replaceRun m acc) l = l := by
  intro ms
  induction ms with
  | nil => intro l _; rfl
  | cons m ms' ih =>
    intro l h
    rw [List.foldl_cons, h m (List.mem_cons_self m ms')]
    exact ih l (fun m' hm' => h m' (List.mem_cons_of_mem m hm'))

/-- On a match-free string one removal pass does nothing. -/
theorem stripPass_fixed (l : List Char)
    (h : ∀ m ∈ METADATA_PATTERNS, matchFreeB m l = true) : stripPass l = l := by
  rw [stripPass]
  exact foldl_replace_fixed METADATA_PATTERNS l
    (fun m hm => replaceRun_matchFree m l (h m hm))

/-- On a match-free string the whole removal loop does nothing. -/
theorem stripLoop_fixed (fuel : Nat) (l : List Char)
    (h : ∀ m ∈ METADATA_PATTERNS, matchFreeB m l = true) :
    stripLoop fuel l = l := by
  cases fuel with
  | zero => rfl
  | succ f =>
    rw [stripLoop]
    rw [stripPass_fixed l h]
    simp

/-- C5: on any string in which no metadata pattern matches, the Metadata
Normalizer only collapses whitespace runs and trims — it removes no
parenthesis or bracket group. -/
theorem claim_C5_no_match_roundtrip (s : String)
    (h : allPatternsFree s = true) :
    stripSEUMetadata s = collapseWsStr s := by
  rw [allPatternsFree, List.all_eq_true] at h
  rw [stripSEUMetadata, collapseWsStr]
  rw [stripLoop_fixed 5 s.data (fun m hm => h m hm)]

/-- Witness for C5 at the concrete question `"What is (x+y) worth?"`: no
pattern matches its parenthesized content, and the normalizer returns it
verbatim. -/
theorem claim_C5_no_match_roundtrip_witness :
    allPatternsFree "What is (x+y) worth?" = true
    ∧ stripSEUMetadata "What is (x+y) worth?" = "What is (x+y) worth?" := by
  constructor
  · rfl
  · rw [claim_C5_no_match_roundtrip "What is (x+y) worth?" (by rfl)]
    rfl

/-! ## Helper lemmas: the conversion driver -/

/-- Characterization of the per-kind block loop: the first component
collects exactly the successful rows in order, the second exactly the
index-stamped reasons of the failing blocks in order. -/
theorem processBlocksFrom_spec (label : String)
    (parse : String → Except String String) :
    ∀ (bs : List String) (i : Nat),
    processBlocksFrom label parse i bs
      = (bs.filterMap (okRow parse),
         (List.enumFrom i bs).filterMap (fun p =>
           match parse p.2 with
           | .ok _ => none
           | .error e => some (label ++ " Question " ++ toString (p.1 + 1) ++ ": " ++ e))) := by
  intro bs
  induction bs with
  | nil => intro i; rfl
  | cons b bs' ih =>
    intro i
    rw [processBlocksFrom, ih (i + 1)]
    cases hp : parse b with
    | ok row =>
      simp [List.filterMap_cons, okRow, hp, List.enumFrom, Except.toOption]
    | error e =>
      simp [List.filterMap_cons, okRow, hp, List.enumFrom, Except.toOption]

/-- `processBlocks` in terms of `okRow` and `errRows`. -/
theorem processBlocks_spec (label : String)
    (parse : String → Except String String) (bs : List String) :
    processBlocks label parse bs = (bs.filterMap (okRow parse), errRows label parse bs) := by
  rw [processBlocks, processBlocksFrom_spec, errRows, List.enum]

/-- C7: on the tab-delimited path a failing block never aborts its
siblings or the other kinds — every kind's successful rows survive in
order, every failing block contributes exactly its index-stamped reason,
and the caller receives both lists. -/
theorem claim_C7_error_isolation (mcq essay tf fib ma mat num : List String) :
    (convertQuestions mcq essay tf fib ma mat num).1
      = mcq.filterMap (okRow parseMCQ) ++ essay.filterMap (okRow parseEssay)
        ++ tf.filterMap (okRow parseTrueFalse) ++ fib.filterMap (okRow parseFillInBlank)
        ++ ma.filterMap (okRow parseMultipleAnswer) ++ mat.filterMap (okRow parseMatching)
        ++ num.filterMap (okRow parseNumericResponse)
    ∧ (convertQuestions mcq essay tf fib ma mat num).2
      = errRows "MCQ" parseMCQ mcq ++ errRows "Essay" parseEssay essay
        ++ errRows "True/False" parseTrueFalse tf
        ++ errRows "Fill in the Blank" parseFillInBlank fib
        ++ errRows "Multiple Answer" parseMultipleAnswer ma
        ++ errRows "Matching" parseMatching mat
        ++ errRows "Numeric Response" parseNumericResponse num := by
  rw [convertQuestions]
  simp [processBlocks_spec]

/-! ## Helper lemmas: the duplicated MC/MA parser pair -/

/-- Master case split for the duplicated parsers: on every block the two
either both fail (at the same structural check) or both succeed with the
same question and choices, differing only in the kind token. -/
theorem mcq_ma_master (text : String) :
    ((parseMCQ text).isOk = false ∧ (parseMultipleAnswer text).isOk = false)
    ∨ ∃ q cs, parseMCQ text = .ok ("MC" ++ "\t" ++ q ++ choiceCells cs)
        ∧ parseMultipleAnswer text = .ok ("MA" ++ "\t" ++ q ++ choiceCells cs) := by
  simp only [parseMCQ, parseMultipleAnswer]
  split_ifs with h1 h2 h3 h4
  · left; exact ⟨rfl, rfl⟩
  · left; exact ⟨rfl, rfl⟩
  · left; exact ⟨rfl, rfl⟩
  · left; exact ⟨rfl, rfl⟩
  · right
    exact ⟨extractQuestionMarker (stripSEUMetadata ((prepLines text).headD "")),
      (prepLines text).tail.filterMap choiceOfLine, rfl, rfl⟩

/-- Reassociation of a rendered row behind its kind token. -/
theorem row_assoc (k q cells : String) :
    k ++ "\t" ++ q ++ cells = k ++ ("\t" ++ (q ++ cells)) := by
  rw [strAppendAssoc, strAppendAssoc]

/-- C10: the multiple-answer parser is the multiple-choice parser up to
the kind label — on the tab path `parseMultipleAnswer` succeeds exactly
when `parseMCQ` does and returns the same row with `MC` replaced by `MA`,
and on the XML path `parseMAData` is `parseMCQData` with the type field
relabelled. -/
theorem claim_C10_ma_refines_mc (text : String) :
    ((parseMultipleAnswer text).isOk = (parseMCQ text).isOk)
    ∧ (∀ rest, parseMCQ text = .ok ("MC" ++ rest) →
        parseMultipleAnswer text = .ok ("MA" ++ rest))
    ∧ (∀ r, parseMCQ text = .ok r → ∃ rest, r = "MC" ++ rest)
    ∧ parseMAData text = (parseMCQData text).map (fun d => { d with qtype := "MA" }) := by
  refine ⟨?_, ?_, ?_, rfl⟩
  · rcases mcq_ma_master text with ⟨h1, h2⟩ | ⟨q, cs, h1, h2⟩
    · rw [h1, h2]
    · rw [h1, h2]; rfl
  · intro rest h
    rcases mcq_ma_master text with ⟨h1, _⟩ | ⟨q, cs, h1, h2⟩
    · rw [h] at h1; cases h1
    · rw [h1, row_assoc] at h
      have hr := strAppendLeftCancel "MC" _ _ (Except.ok.inj h)
      rw [h2, row_assoc, hr]
  · intro r h
    rcases mcq_ma_master text with ⟨h1, _⟩ | ⟨q, cs, h1, _⟩
    · rw [h] at h1; cases h1
    · rw [h1, row_assoc] at h
      exact ⟨"\t" ++ (q ++ choiceCells cs), (Except.ok.inj h).symm⟩

/-! ## Helper lemmas: tab-free fields and tab splitting -/

/-- Characters of a trimmed string. -/
theorem trimStr_data (s : String) : (trimStr s).data = trimJS s.data := by
  rw [trimStr]

/-- Characters of the extracted question come from the input line. -/
theorem mem_extractQuestionMarker {c : Char} {s : String}
    (hc : c ∈ (extractQuestionMarker s).data) : c ∈ s.data := by
  rw [extractQuestionMarker] at hc
  rcases hn : matchNumberedLen s.data with _ | n
  · rw [hn] at hc
    rcases hl : matchLetteredLen s.data with _ | n
    · rw [hl] at hc
      exact mem_trimJS hc
    · rw [hl] at hc
      exact List.mem_of_mem_drop (mem_trimJS hc)
  · rw [hn] at hc
    exact List.mem_of_mem_drop (mem_trimJS hc)

/-- The question field of a numeric row contains no tab. -/
theorem numericQuestion_no_tab (text : String) : '\t' ∉ (numericQuestion text).data := by
  intro hc
  rw [numericQuestion] at hc
  exact strip_no_tab ((prepLines text).headD "") (mem_extractQuestionMarker hc)

/-- The answer field of a numeric row contains no tab. -/
theorem numericAnswer_no_tab (text : String) : '\t' ∉ (numericAnswer text).data := by
  intro hc
  rw [numericAnswer] at hc
  by_cases h : (prepLines text).length > 1
  · rw [if_pos h, trimStr_data] at hc
    exact strip_no_tab ((prepLines text)[1]?.getD "")
      (mem_trimJS (c := '\t') (l := (stripSEUMetadata ((prepLines text)[1]?.getD "")).data) hc)
  · rw [if_neg h] at hc
    cases hc

/-- The tolerance field of a numeric row contains no tab. -/
theorem numericTolerance_no_tab (text : String) : '\t' ∉ (numericTolerance text).data := by
  intro hc
  rw [numericTolerance] at hc
  by_cases h : (prepLines text).length > 2
  · rw [if_pos h, trimStr_data] at hc
    exact strip_no_tab ((prepLines text)[2]?.getD "")
      (mem_trimJS (c := '\t') (l := (stripSEUMetadata ((prepLines text)[2]?.getD "")).data) hc)
  · rw [if_neg h] at hc
    cases hc

/-- Splitting a row at its first tab. -/
theorem splitTab_append (x y : String) (hx : '\t' ∉ x.data) :
    splitTabRow (x ++ ("\t" ++ y)) = x :: splitTabRow y := by
  rw [splitTabRow, strDataAppend, strDataAppend]
  have hxy : x.data ++ (['\t'] ++ y.data) = x.data ++ '\t' :: y.data := rfl
  rw [show ("\t" : String).data = ['\t'] from rfl, hxy]
  rw [jsSplit_append '\t' x.data y.data hx]
  rw [List.map_cons]
  rw [strMkData]
  rfl

/-- A tab-free string is a one-field row. -/
theorem splitTab_single (x : String) (hx : '\t' ∉ x.data) :
    splitTabRow x = [x] := by
  rw [splitTabRow, jsSplit_nosep '\t' x.data hx, List.map_cons, List.map_nil, strMkData]

/-- C8: a successful numeric row has exactly the fields `NUM`, question,
answer when the tolerance is absent or strips to empty — no trailing tab
and no empty trailing field — and exactly one further field holding the
tolerance when it is non-empty. -/
theorem claim_C8_numeric_row_shape (text r : String)
    (hok : parseNumericResponse text = .ok r) :
    (numericTolerance text = "" →
      splitTabRow r = ["NUM", numericQuestion text, numericAnswer text])
    ∧ (numericTolerance text ≠ "" →
      splitTabRow r = ["NUM", numericQuestion text, numericAnswer text, numericTolerance text]) := by
  rw [parseNumericResponse] at hok
  split at hok
  · exact absurd hok (by simp)
  · split at hok
    · exact absurd hok (by simp)
    · split at hok
      · exact absurd hok (by simp)
      · have hrow := Except.ok.inj hok
        have hnum : '\t' ∉ ("NUM" : String).data := by decide
        constructor
        · intro h4
          rw [← hrow]
          rw [if_neg (by simp [h4])]
          rw [strAppendEmpty]
          simp only [strAppendAssoc]
          rw [splitTab_append _ _ hnum,
            splitTab_append _ _ (numericQuestion_no_tab text),
            splitTab_single _ (numericAnswer_no_tab text)]
        · intro h4
          rw [← hrow]
          rw [if_pos h4]
          simp only [strAppendAssoc]
          rw [splitTab_append _ _ hnum,
            splitTab_append _ _ (numericQuestion_no_tab text),
            splitTab_append _ _ (numericAnswer_no_tab text),
            splitTab_single _ (numericTolerance_no_tab text)]

/-- Witness for C8 at the block `"3. How many sides does a square have?\n4"`:
the rendered row splits into exactly three fields, with no trailing
tolerance field. -/
theorem claim_C8_numeric_row_shape_witness :
    splitTabRow "NUM\tHow many sides does a square have?\t4"
      = ["NUM", "How many sides does a square have?", "4"] := by
  have h := (claim_C8_numeric_row_shape "3. How many sides does a square have?\n4"
      "NUM\tHow many sides does a square have?\t4" (by rfl)).1 (by rfl)
  rw [h]
  rfl

/-- Witness for C10 at the block `"4. Pick a letter.\na. A*\nb. B"`: the
multiple-answer row equals the multiple-choice row with `MC` replaced by
`MA`. -/
theorem claim_C10_ma_refines_mc_witness :
    parseMultipleAnswer "4. Pick a letter.\na. A*\nb. B"
      = Except.ok ("MA" ++ "\tPick a letter.\tA\tcorrect\tB\tincorrect") :=
  (claim_C10_ma_refines_mc "4. Pick a letter.\na. A*\nb. B").2.1
    "\tPick a letter.\tA\tcorrect\tB\tincorrect" (by rfl)
